import Mathlib

/-!
Shallow embedding of the "Open in Editor" Obsidian plugin (src/main.ts) and
verification of its specification claims.

The embedding mirrors the TypeScript source: the data model (`EditorConfig`,
`CustomEditorConfig`, `PluginSettings`, `BUILT_IN_EDITORS`, `DEFAULT_SETTINGS`),
settings loading (`loadSettings`), the editor registry (`getEnabledEditors`),
the menu contributor (`addEditorMenuItems`), the launch dispatcher
(`openInEditor`), and the custom-editor creation of the settings tab
(`addCustomEditor`).  The JavaScript `Record` backing `builtInEditors` is
modelled as an association list with `List.lookup` semantics; `process.platform`
is a `Platform` value; the outcome of the spawned child process is a
`LaunchOutcome` value and `execAsync` maps it to the `Except` behaviour of the
promisified `exec` (resolving on exit code 0, rejecting otherwise).
-/

namespace OpenInEditor

/-- Flags stored per built-in editor id in the persisted settings
(`{ enabled: boolean; grouped: boolean }` in `PluginSettings.builtInEditors`). -/
structure BuiltInFlags where
  enabled : Bool
  grouped : Bool
deriving DecidableEq, Repr

/-- Structure `EditorConfig` from src/main.ts. -/
structure EditorConfig where
  id : String
  name : String
  appName : String
  command : String
  enabled : Bool
  grouped : Bool
  isBuiltIn : Bool
deriving DecidableEq, Repr

/-- Structure `CustomEditorConfig` from src/main.ts. -/
structure CustomEditorConfig where
  id : String
  name : String
  appName : String
  command : String
  enabled : Bool
  grouped : Bool
deriving DecidableEq, Repr

/-- Structure `PluginSettings` from src/main.ts.  The JS record
`Record<string, {enabled, grouped}>` is modelled as an association list. -/
structure PluginSettings where
  builtInEditors : List (String × BuiltInFlags)
  customEditors : List CustomEditorConfig
deriving DecidableEq, Repr

/-- The element type of `BUILT_IN_EDITORS`
(`Omit<EditorConfig, "enabled" | "grouped">` in the source). -/
structure BuiltInEditorTemplate where
  id : String
  name : String
  appName : String
  command : String
  isBuiltIn : Bool
deriving DecidableEq, Repr

/-- The `BUILT_IN_EDITORS` list from src/main.ts, in declaration order. -/
def BUILT_IN_EDITORS : List BuiltInEditorTemplate :=
  [⟨"vscode", "VS Code", "Visual Studio Code", "code", true⟩,
   ⟨"cursor", "Cursor", "Cursor", "cursor", true⟩,
   ⟨"zed", "Zed", "Zed", "zed", true⟩,
   ⟨"windsurf", "Windsurf", "Windsurf", "windsurf", true⟩,
   ⟨"antygravity", "Antygravity", "Antygravity", "antygravity", true⟩]

/-- The `DEFAULT_SETTINGS` object from src/main.ts. -/
def DEFAULT_SETTINGS : PluginSettings :=
  { builtInEditors := BUILT_IN_EDITORS.map (fun e => (e.id, ⟨false, false⟩)),
    customEditors := [] }

/-- The body of the back-fill loop in `loadSettings`:
`if (!this.settings.builtInEditors[editor.id]) { ... = {enabled:false, grouped:false} }`.
A JS record mutation adding a fresh key appends it. -/
def ensureBuiltInEntry (m : List (String × BuiltInFlags)) (id : String) :
    List (String × BuiltInFlags) :=
  match m.lookup id with
  | some _ => m
  | none => m ++ [(id, ⟨false, false⟩)]

/-- The `for (const editor of BUILT_IN_EDITORS)` back-fill loop of `loadSettings`. -/
def ensureAllBuiltIns (m : List (String × BuiltInFlags))
    (l : List BuiltInEditorTemplate) : List (String × BuiltInFlags) :=
  l.foldl (fun acc e => ensureBuiltInEntry acc e.id) m

/-- Method `loadSettings` from src/main.ts.  `stored` is the value returned by
`loadData()` (`none` when nothing was persisted); `Object.assign({},
DEFAULT_SETTINGS, data)` replaces both top-level fields when `data` is present. -/
def loadSettings (stored : Option PluginSettings) : PluginSettings :=
  let base := stored.getD DEFAULT_SETTINGS
  { base with builtInEditors := ensureAllBuiltIns base.builtInEditors BUILT_IN_EDITORS }

/-- Method `getEnabledEditors` from src/main.ts: enabled built-ins in declaration
order (skipping ids without a settings entry, `settings?.enabled`),
then enabled custom editors in stored order. -/
def getEnabledEditors (s : PluginSettings) : List EditorConfig :=
  (BUILT_IN_EDITORS.filterMap (fun e =>
    match s.builtInEditors.lookup e.id with
    | some fl =>
        if fl.enabled then
          some ⟨e.id, e.name, e.appName, e.command, true, fl.grouped, e.isBuiltIn⟩
        else none
    | none => none))
  ++ (s.customEditors.filterMap (fun c =>
    if c.enabled then
      some ⟨c.id, c.name, c.appName, c.command, true, c.grouped, false⟩
    else none))

/-- Type `TAbstractFile`: either a `TFile` (note) or a folder, carrying its
vault-relative path. -/
inductive TAbstractFile where
  | file (path : String)
  | folder (path : String)
deriving DecidableEq, Repr

/-- The host vault adapter: `getFullPath` resolves a vault-relative path to an
absolute one, `basePath` is the vault root. -/
structure VaultAdapter where
  getFullPath : String → String
  basePath : String

/-- The three `process.platform` branches distinguished by `openInEditor`. -/
inductive Platform where
  | darwin
  | win32
  | linux
deriving DecidableEq, Repr

/-- The target-resolution preamble of `openInEditor`: files and folders both go
through `getFullPath`; with no target the vault `basePath` is used. -/
def resolveFilePath (adapter : VaultAdapter) : Option TAbstractFile → String
  | some (TAbstractFile.file p) => adapter.getFullPath p
  | some (TAbstractFile.folder p) => adapter.getFullPath p
  | none => adapter.basePath

/-- The platform-keyed command-string construction of `openInEditor`. -/
def buildCommand (platform : Platform) (editor : EditorConfig) (filePath : String) :
    String :=
  match platform with
  | Platform.darwin => "open -a \"" ++ editor.appName ++ "\" \"" ++ filePath ++ "\""
  | Platform.win32 => "\"" ++ editor.command ++ "\" \"" ++ filePath ++ "\""
  | Platform.linux => editor.command ++ " \"" ++ filePath ++ "\""

/-- Possible outcomes of the spawned child process. -/
inductive LaunchOutcome where
  | ok
  | nonZeroExit
  | commandNotFound
  | spawnError
deriving DecidableEq, Repr

/-- Function `execAsync` (promisified `child_process.exec`): resolves when the process
exits 0 and rejects (throws at the `await`) on non-zero exit, missing command,
or spawn error. -/
def execAsync (command : String) (outcome : LaunchOutcome) : Except String String :=
  match outcome with
  | LaunchOutcome.ok => Except.ok command
  | LaunchOutcome.nonZeroExit => Except.error "process exited with a non-zero code"
  | LaunchOutcome.commandNotFound => Except.error "command not found"
  | LaunchOutcome.spawnError => Except.error "spawn error"

/-- The success notice text: `new Notice(..)` after `await execAsync(command)`. -/
def successNotice (editor : EditorConfig) : String :=
  "Opening in " ++ editor.name

/-- The failure notice text shown in the `catch` block. -/
def failureNotice (editor : EditorConfig) : String :=
  "Failed to open in " ++ editor.name ++ ". Make sure " ++ editor.name ++ " is installed."

/-- Observable result of one `openInEditor` call: the command string handed to
`execAsync` and the notices shown, in order. -/
structure OpenResult where
  executedCommand : String
  notices : List String
deriving DecidableEq, Repr

/-- Method `openInEditor` from src/main.ts.  The `try` body is the inner `Except`
computation; the `catch` block converts any error into a failure notice, so the
overall call never propagates an exception. -/
def openInEditor (platform : Platform) (adapter : VaultAdapter)
    (editor : EditorConfig) (file : Option TAbstractFile)
    (outcome : LaunchOutcome) : Except String OpenResult :=
  match (do
      let filePath := resolveFilePath adapter file
      let command := buildCommand platform editor filePath
      let _ ← execAsync command outcome
      pure { executedCommand := command, notices := [successNotice editor] }
      : Except String OpenResult) with
  | Except.ok r => Except.ok r
  | Except.error _ =>
      Except.ok { executedCommand := buildCommand platform editor (resolveFilePath adapter file),
                  notices := [failureNotice editor] }

/-- A click handler captured by a menu entry: the editor descriptor and target
reference bound at contribution time. -/
structure ClickAction where
  editor : EditorConfig
  target : Option TAbstractFile
deriving DecidableEq, Repr

/-- One menu mutation performed by `addEditorMenuItems`: a plain item
(title, icon, click action) or the grouped parent with its submenu items. -/
inductive MenuEntry where
  | plain (title : String) (icon : String) (action : ClickAction)
  | groupParent (title : String) (icon : String)
      (sub : List (String × String × ClickAction))
deriving DecidableEq, Repr

/-- The body of `addEditorMenuItems` after fetching the registry: partition the
enabled editors by the grouped flag, one plain entry per ungrouped editor,
then a single "Open in External Editor" parent when any grouped editor exists. -/
def buildMenuEntries (editors : List EditorConfig) (file : Option TAbstractFile) :
    List MenuEntry :=
  if editors.length = 0 then []
  else
    let groupedEditors := editors.filter (fun e => e.grouped)
    let ungroupedEditors := editors.filter (fun e => !e.grouped)
    (ungroupedEditors.map (fun e =>
      MenuEntry.plain ("Open in " ++ e.name) "code" ⟨e, file⟩))
    ++ (if groupedEditors.length > 0 then
          [MenuEntry.groupParent "Open in External Editor" "code"
            (groupedEditors.map (fun e => (e.name, "code", (⟨e, file⟩ : ClickAction))))]
        else [])

/-- Method `addEditorMenuItems` from src/main.ts, returning the entries added. -/
def addEditorMenuItems (s : PluginSettings) (file : Option TAbstractFile) :
    List MenuEntry :=
  buildMenuEntries (getEnabledEditors s) file

/-- Recognises the grouped "Open in External Editor" parent entry. -/
def isGroupParent : MenuEntry → Bool
  | MenuEntry.groupParent _ _ _ => true
  | MenuEntry.plain _ _ _ => false

/-- The click actions reachable from one menu entry. -/
def entryActions : MenuEntry → List ClickAction
  | MenuEntry.plain _ _ a => [a]
  | MenuEntry.groupParent _ _ sub => sub.map (fun x => x.2.2)

/-- All click actions reachable from a list of menu entries. -/
def menuActions (entries : List MenuEntry) : List ClickAction :=
  (entries.map entryActions).flatten

/-- The `files-menu` event handler from `onload`:
`if (files.length > 0) { this.addEditorMenuItems(menu, files[0]); }`. -/
def onFilesMenu (s : PluginSettings) (files : List TAbstractFile) : List MenuEntry :=
  if h : 0 < files.length then addEditorMenuItems s (some (files.get ⟨0, h⟩))
  else []

/-- The custom editor appended by the "Add Custom Editor" button
(`id: custom-` followed by `Date.now()`, interpolated in decimal). -/
def newCustomEditor (now : Nat) : CustomEditorConfig :=
  ⟨"custom-" ++ Nat.repr now, "New Editor", "", "", false, false⟩

/-- One click of the "Add Custom Editor" button at timestamp `now`. -/
def addCustomEditor (now : Nat) (s : PluginSettings) : PluginSettings :=
  { s with customEditors := s.customEditors ++ [newCustomEditor now] }

/-- A sequence of "Add Custom Editor" clicks at the given timestamps. -/
def addCustomEditors (s : PluginSettings) (ts : List Nat) : PluginSettings :=
  ts.foldl (fun acc t => addCustomEditor t acc) s

/-! Decimal-representation helpers: `Nat.repr` is injective, hence the
generated custom ids collide exactly when the creation timestamps do. -/

/-- Numeric value of a decimal digit character. -/
def digitVal (c : Char) : Nat := c.toNat - 48

/-- Decode a list of decimal digit characters, most significant first. -/
def decodeDigits (l : List Char) : Nat :=
  l.foldl (fun a c => a * 10 + digitVal c) 0

/-- Fuel-free counterpart of `Nat.toDigitsCore` at base 10. -/
def decRepr (n : Nat) : List Char :=
  if h : n / 10 = 0 then [Nat.digitChar (n % 10)]
  else decRepr (n / 10) ++ [Nat.digitChar (n % 10)]
decreasing_by
  exact Nat.div_lt_self (Nat.pos_of_ne_zero (fun hn => h (by simp [hn]))) (by decide)

theorem toDigitsCore_eq_decRepr :
    ∀ (fuel n : Nat) (ds : List Char), n < fuel →
      Nat.toDigitsCore 10 fuel n ds = decRepr n ++ ds := by
  intro fuel
  induction fuel with
  | zero => intro n ds h; omega
  | succ f ih =>
    intro n ds h
    by_cases h10 : n / 10 = 0
    · rw [Nat.toDigitsCore, decRepr]
      simp [h10]
    · rw [Nat.toDigitsCore, decRepr]
      simp only [h10, if_false, dif_neg]
      have hpos : 0 < n := by omega
      have hlt : n / 10 < f := by
        have := Nat.div_lt_self hpos (by decide : 1 < 10)
        omega
      rw [ih (n / 10) (Nat.digitChar (n % 10) :: ds) hlt]
      simp

theorem repr_eq_decRepr (n : Nat) : Nat.repr n = (decRepr n).asString := by
  rw [Nat.repr, Nat.toDigits]
  rw [toDigitsCore_eq_decRepr (n + 1) n [] (Nat.lt_succ_self n)]
  simp

theorem digitVal_digitChar (n : Nat) (h : n < 10) :
    digitVal (Nat.digitChar n) = n := by
  interval_cases n <;> rfl

theorem decode_decRepr_aux (n : Nat) :
    ∀ a : Nat, (decRepr n).foldl (fun x c => x * 10 + digitVal c) a =
      a * 10 ^ (decRepr n).length + n := by
  induction n using Nat.strong_induction_on with
  | _ n ih =>
    intro a
    by_cases h : n / 10 = 0
    · rw [decRepr]
      simp only [h, dif_pos, List.foldl_cons, List.foldl_nil, List.length_cons,
        List.length_nil]
      rw [digitVal_digitChar (n % 10) (by omega)]
      have hn : n < 10 := by omega
      simp [pow_one]
      omega
    · rw [decRepr, dif_neg h]
      rw [List.foldl_append]
      have hpos : 0 < n := by omega
      have hlt : n / 10 < n := Nat.div_lt_self hpos (by decide : 1 < 10)
      rw [ih (n / 10) hlt a]
      simp only [List.foldl_cons, List.foldl_nil, List.length_append,
        List.length_cons, List.length_nil]
      rw [digitVal_digitChar (n % 10) (by omega)]
      rw [pow_succ, ← mul_assoc]
      generalize a * 10 ^ (decRepr (n / 10)).length = w
      omega

theorem decode_decRepr (n : Nat) : decodeDigits (decRepr n) = n := by
  have := decode_decRepr_aux n 0
  simpa [decodeDigits] using this

theorem decRepr_injective : Function.Injective decRepr := by
  intro a b h
  have h2 := congrArg decodeDigits h
  rwa [decode_decRepr, decode_decRepr] at h2

theorem natRepr_injective : Function.Injective Nat.repr := by
  intro a b h
  apply decRepr_injective
  rw [repr_eq_decRepr, repr_eq_decRepr] at h
  have h2 := congrArg String.data h
  simpa [List.asString] using h2

theorem customId_injective :
    Function.Injective (fun t : Nat => "custom-" ++ Nat.repr t) := by
  intro a b h
  apply natRepr_injective
  have h2 := congrArg String.data h
  simp only [String.data_append] at h2
  exact String.ext (List.append_cancel_left h2)

/-! Helper lemmas about the association-list settings record. -/

theorem lookup_ensureBuiltInEntry (m : List (String × BuiltInFlags)) (id x : String) :
    (ensureBuiltInEntry m id).lookup x =
      if x = id ∧ m.lookup id = none then some ⟨false, false⟩ else m.lookup x := by
  unfold ensureBuiltInEntry
  cases hm : m.lookup id with
  | some v => simp [hm]
  | none =>
    rw [List.lookup_append]
    by_cases hx : x = id
    · subst hx
      simp [hm]
    · have hbeq : (x == id) = false := beq_eq_false_iff_ne.mpr hx
      simp [hm, hx, List.lookup_cons, hbeq]

theorem lookup_ensureAllBuiltIns :
    ∀ (l : List BuiltInEditorTemplate) (m : List (String × BuiltInFlags)) (x : String),
      (l.map (fun e => e.id)).Nodup →
      (ensureAllBuiltIns m l).lookup x =
        if x ∈ l.map (fun e => e.id) ∧ m.lookup x = none then some ⟨false, false⟩
        else m.lookup x := by
  intro l
  induction l with
  | nil => intro m x _; simp [ensureAllBuiltIns]
  | cons e tl ih =>
    intro m x hnd
    simp only [List.map_cons, List.nodup_cons] at hnd
    obtain ⟨hnotin, hnd2⟩ := hnd
    have hstep : ensureAllBuiltIns m (e :: tl) =
        ensureAllBuiltIns (ensureBuiltInEntry m e.id) tl := rfl
    rw [hstep, ih (ensureBuiltInEntry m e.id) x hnd2]
    by_cases hx : x = e.id
    · subst hx
      rw [lookup_ensureBuiltInEntry]
      by_cases hm2 : m.lookup e.id = none
      · simp [hm2, hnotin]
      · simp [hm2, hnotin]
    · rw [lookup_ensureBuiltInEntry]
      simp only [hx, false_and, if_false]
      by_cases hmem : x ∈ List.map (fun e => e.id) tl
      · by_cases hm2 : m.lookup x = none
        · simp [hmem, hm2, List.mem_cons]
        · simp [hmem, hm2, List.mem_cons]
      · simp [hmem, hx, List.mem_cons]

/-- Characterisation of membership in `getEnabledEditors`: every returned
descriptor comes either from an enabled built-in settings entry or from an
enabled stored custom editor. -/
theorem mem_getEnabledEditors (s : PluginSettings) (e : EditorConfig)
    (he : e ∈ getEnabledEditors s) :
    (∃ a, a ∈ BUILT_IN_EDITORS ∧ ∃ fl, s.builtInEditors.lookup a.id = some fl ∧
       fl.enabled = true ∧
       e = ⟨a.id, a.name, a.appName, a.command, true, fl.grouped, a.isBuiltIn⟩) ∨
    (∃ c, c ∈ s.customEditors ∧ c.enabled = true ∧
       e = ⟨c.id, c.name, c.appName, c.command, true, c.grouped, false⟩) := by
  rw [getEnabledEditors, List.mem_append] at he
  rcases he with hb | hc
  · left
    rw [List.mem_filterMap] at hb
    obtain ⟨a, ha, hfa⟩ := hb
    refine ⟨a, ha, ?_⟩
    cases hl : s.builtInEditors.lookup a.id with
    | none => rw [hl] at hfa; simp at hfa
    | some fl =>
      rw [hl] at hfa
      cases hen : fl.enabled with
      | false => simp [hen] at hfa
      | true =>
        simp only [hen, if_true, Option.some.injEq] at hfa
        exact ⟨fl, rfl, hen, hfa.symm⟩
  · right
    rw [List.mem_filterMap] at hc
    obtain ⟨c, hcc, hfc⟩ := hc
    cases hen : c.enabled with
    | false => simp [hen] at hfc
    | true =>
      simp only [hen, if_true, Option.some.injEq] at hfc
      exact ⟨c, hcc, hen, hfc.symm⟩

/-- A `filterMap` by a function that acts as a guarded `map` equals
`filter` followed by `map`. -/
theorem filterMap_eq_filter_map {α β : Type} (f : α → Option β) (p : α → Bool)
    (g : α → β) (h : ∀ a, f a = if p a then some (g a) else none) :
    ∀ l : List α, l.filterMap f = (l.filter p).map g := by
  intro l
  induction l with
  | nil => rfl
  | cons hd tl ih =>
    rw [List.filterMap_cons, List.filter_cons]
    cases hp : p hd with
    | true => simp [h hd, hp, ih]
    | false => simp [h hd, hp, ih]

/-- The registry operation as §4.1 of the spec words it: built-in editors whose
settings entry has enabled=true, in declaration order, transformed to the
common descriptor shape with the grouped flag applied, followed by the custom
editors with enabled=true in stored order. -/
def enabledEditorsSpec (s : PluginSettings) : List EditorConfig :=
  ((BUILT_IN_EDITORS.filter (fun e =>
      ((s.builtInEditors.lookup e.id).map (fun fl => fl.enabled)).getD false)).map
    (fun e =>
      ⟨e.id, e.name, e.appName, e.command, true,
       ((s.builtInEditors.lookup e.id).map (fun fl => fl.grouped)).getD false,
       e.isBuiltIn⟩))
  ++ ((s.customEditors.filter (fun c => c.enabled)).map
    (fun c => ⟨c.id, c.name, c.appName, c.command, true, c.grouped, false⟩))

/-- Every click action contributed by the menu builder captures the target
passed at contribution time. -/
theorem menuActions_target (editors : List EditorConfig) (file : Option TAbstractFile) :
    ∀ a ∈ menuActions (buildMenuEntries editors file), a.target = file := by
  intro a ha
  simp only [menuActions, List.mem_flatten, List.mem_map] at ha
  obtain ⟨l, ⟨entry, hentry, rfl⟩, hal⟩ := ha
  by_cases hlen : editors.length = 0
  · simp [buildMenuEntries, hlen] at hentry
  · simp only [buildMenuEntries, hlen, if_false] at hentry
    rw [List.mem_append] at hentry
    rcases hentry with hu | hg
    · rw [List.mem_map] at hu
      obtain ⟨e, _, rfl⟩ := hu
      simp only [entryActions, List.mem_singleton] at hal
      subst hal
      rfl
    · by_cases hgl : (editors.filter (fun e => e.grouped)).length > 0
      · simp only [hgl, if_true, List.mem_singleton] at hg
        subst hg
        simp only [entryActions, List.map_map, List.mem_map] at hal
        obtain ⟨e, _, rfl⟩ := hal
        rfl
      · simp [hgl] at hg

/-- Appending custom editors folds to a plain list append. -/
theorem addCustomEditors_customEditors :
    ∀ (ts : List Nat) (s : PluginSettings),
      (addCustomEditors s ts).customEditors =
        s.customEditors ++ ts.map newCustomEditor := by
  intro ts
  induction ts with
  | nil => intro s; simp [addCustomEditors]
  | cons t tl ih =>
    intro s
    have hstep : addCustomEditors s (t :: tl) =
        addCustomEditors (addCustomEditor t s) tl := rfl
    rw [hstep, ih (addCustomEditor t s)]
    simp [addCustomEditor]

/-- The success and failure notices are never the same string. -/
theorem successNotice_ne_failureNotice (e : EditorConfig) :
    successNotice e ≠ failureNotice e := by
  intro h
  have h2 := congrArg String.length h
  simp only [successNotice, failureNotice, String.length_append] at h2
  have l1 : ("Opening in " : String).length = 11 := rfl
  have l2 : ("Failed to open in " : String).length = 18 := rfl
  have l3 : (". Make sure " : String).length = 12 := rfl
  have l4 : (" is installed." : String).length = 14 := rfl
  rw [l1, l2, l3, l4] at h2
  omega

/-! Sample values used by witnesses and counterexamples. -/

/-- An adapter whose vault root is `/vault`. -/
def noteAdapter : VaultAdapter := ⟨fun p => "/vault/" ++ p, "/vault"⟩

/-- The VS Code descriptor, enabled and ungrouped. -/
def codeCfg : EditorConfig :=
  ⟨"vscode", "VS Code", "Visual Studio Code", "code", true, false, true⟩

/-- The Zed descriptor, enabled and ungrouped. -/
def zedCfg : EditorConfig := ⟨"zed", "Zed", "Zed", "zed", true, false, true⟩

/-- The Cursor descriptor, enabled and grouped. -/
def cursorGroupedCfg : EditorConfig :=
  ⟨"cursor", "Cursor", "Cursor", "cursor", true, true, true⟩

/-- The Zed built-in template. -/
def zedTemplate : BuiltInEditorTemplate := ⟨"zed", "Zed", "Zed", "zed", true⟩

/-- Settings with only VS Code enabled (ungrouped) and no custom editors. -/
def sampleSettings : PluginSettings := ⟨[("vscode", ⟨true, false⟩)], []⟩

/-- Settings with no entries at all. -/
def emptySettings : PluginSettings := ⟨[], []⟩

/-! Claim theorems. -/

/-- C1: for every target and launch outcome, `openInEditor` returns normally
(no exception reaches the caller); on failure it shows exactly one failure
notice naming the editor and zero success notices, and on success exactly one
success notice naming the editor. -/
theorem open_notifications_exactly_one (platform : Platform) (adapter : VaultAdapter)
    (editor : EditorConfig) (file : Option TAbstractFile) (outcome : LaunchOutcome) :
    ∃ r, openInEditor platform adapter editor file outcome = Except.ok r ∧
      (if outcome = LaunchOutcome.ok then
        r.notices.count (successNotice editor) = 1 ∧
        r.notices.count (failureNotice editor) = 0
      else
        r.notices.count (failureNotice editor) = 1 ∧
        r.notices.count (successNotice editor) = 0) := by
  have h1 : (successNotice editor == failureNotice editor) = false :=
    beq_eq_false_iff_ne.mpr (successNotice_ne_failureNotice editor)
  have h2 : (failureNotice editor == successNotice editor) = false :=
    beq_eq_false_iff_ne.mpr (Ne.symm (successNotice_ne_failureNotice editor))
  cases outcome <;>
    exact ⟨_, rfl, by simp [List.count_cons, List.count_nil, h1, h2]⟩

/-- C2 counterexample: on the Windows platform branch for `{command:"code"}`
and resolved path `/vault/note.md`, the executed command quotes the command
token, so it is not the claimed `code "/vault/note.md"`. -/
theorem win32_command_token_quoted :
    openInEditor Platform.win32 noteAdapter codeCfg
        (some (TAbstractFile.file "note.md")) LaunchOutcome.ok =
      Except.ok ⟨"\"code\" \"/vault/note.md\"", [successNotice codeCfg]⟩ ∧
    "\"code\" \"/vault/note.md\"" ≠ "code \"/vault/note.md\"" :=
  ⟨rfl, by decide⟩

/-- C2 (amended): for editor command token `code` and resolved path
`/vault/note.md`, the Linux branch executes exactly `code "/vault/note.md"`
(token unquoted, path quoted), while the Windows branch executes
`"code" "/vault/note.md"` (the token quoted as well). -/
theorem launch_command_linux_win32 (adapter : VaultAdapter) (editor : EditorConfig)
    (file : Option TAbstractFile) (outcome : LaunchOutcome)
    (hcmd : editor.command = "code")
    (hpath : resolveFilePath adapter file = "/vault/note.md") :
    (∃ r, openInEditor Platform.linux adapter editor file outcome = Except.ok r ∧
      r.executedCommand = "code \"/vault/note.md\"") ∧
    (∃ r, openInEditor Platform.win32 adapter editor file outcome = Except.ok r ∧
      r.executedCommand = "\"code\" \"/vault/note.md\"") := by
  constructor
  · cases outcome <;>
      · refine ⟨_, rfl, ?_⟩
        show buildCommand Platform.linux editor (resolveFilePath adapter file) = _
        simp only [buildCommand]
        rw [hcmd, hpath]
        rfl
  · cases outcome <;>
      · refine ⟨_, rfl, ?_⟩
        show buildCommand Platform.win32 editor (resolveFilePath adapter file) = _
        simp only [buildCommand]
        rw [hcmd, hpath]
        rfl

/-- Witness for the amended C2 at a concrete adapter, editor and target. -/
theorem launch_command_linux_win32_witness :
    (∃ r, openInEditor Platform.linux noteAdapter codeCfg
        (some (TAbstractFile.file "note.md")) LaunchOutcome.ok = Except.ok r ∧
      r.executedCommand = "code \"/vault/note.md\"") ∧
    (∃ r, openInEditor Platform.win32 noteAdapter codeCfg
        (some (TAbstractFile.file "note.md")) LaunchOutcome.ok = Except.ok r ∧
      r.executedCommand = "\"code\" \"/vault/note.md\"") :=
  launch_command_linux_win32 noteAdapter codeCfg (some (TAbstractFile.file "note.md"))
    LaunchOutcome.ok rfl rfl

/-- C5: on macOS for `{appName:"Zed"}` and resolved path `/vault/note.md`,
`openInEditor` executes exactly `open -a "Zed" "/vault/note.md"`. -/
theorem darwin_launch_command (adapter : VaultAdapter) (editor : EditorConfig)
    (file : Option TAbstractFile) (outcome : LaunchOutcome)
    (happ : editor.appName = "Zed")
    (hpath : resolveFilePath adapter file = "/vault/note.md") :
    ∃ r, openInEditor Platform.darwin adapter editor file outcome = Except.ok r ∧
      r.executedCommand = "open -a \"Zed\" \"/vault/note.md\"" := by
  cases outcome <;>
    · refine ⟨_, rfl, ?_⟩
      show buildCommand Platform.darwin editor (resolveFilePath adapter file) = _
      simp only [buildCommand]
      rw [happ, hpath]
      rfl

/-- Witness for C5 at a concrete adapter, editor and target. -/
theorem darwin_launch_command_witness :
    ∃ r, openInEditor Platform.darwin noteAdapter zedCfg
        (some (TAbstractFile.file "note.md")) LaunchOutcome.ok = Except.ok r ∧
      r.executedCommand = "open -a \"Zed\" \"/vault/note.md\"" :=
  darwin_launch_command noteAdapter zedCfg (some (TAbstractFile.file "note.md"))
    LaunchOutcome.ok rfl rfl

/-- C3: loading a persisted settings object back-fills exactly the missing
built-in ids with `{enabled:false, grouped:false}`, leaves every pre-existing
entry (and the custom list) untouched, and afterwards every built-in id has an
entry. -/
theorem loadSettings_backfills_missing (stored : PluginSettings) (x : String)
    (b : BuiltInEditorTemplate) (hb : b ∈ BUILT_IN_EDITORS) :
    ((loadSettings (some stored)).builtInEditors.lookup x =
      if x ∈ BUILT_IN_EDITORS.map (fun e => e.id) ∧
          stored.builtInEditors.lookup x = none
      then some ⟨false, false⟩ else stored.builtInEditors.lookup x) ∧
    (loadSettings (some stored)).customEditors = stored.customEditors ∧
    ((loadSettings (some stored)).builtInEditors.lookup b.id).isSome = true := by
  have hnd : (BUILT_IN_EDITORS.map (fun e => e.id)).Nodup := by decide
  have hload : (loadSettings (some stored)).builtInEditors =
      ensureAllBuiltIns stored.builtInEditors BUILT_IN_EDITORS := rfl
  have hmain : ∀ y, (loadSettings (some stored)).builtInEditors.lookup y =
      if y ∈ BUILT_IN_EDITORS.map (fun e => e.id) ∧
          stored.builtInEditors.lookup y = none
      then some ⟨false, false⟩ else stored.builtInEditors.lookup y := by
    intro y
    rw [hload]
    exact lookup_ensureAllBuiltIns BUILT_IN_EDITORS stored.builtInEditors y hnd
  refine ⟨hmain x, rfl, ?_⟩
  rw [hmain b.id]
  have hmem : b.id ∈ BUILT_IN_EDITORS.map (fun e => e.id) :=
    List.mem_map_of_mem _ hb
  cases hs : stored.builtInEditors.lookup b.id with
  | none => simp [hmem, hs]
  | some v => simp [hmem, hs]

/-- Witness for C3: a stored object that has a `vscode` entry but no `zed`
entry; the `zed` lookup is back-filled, the `vscode` one kept. -/
theorem loadSettings_backfills_missing_witness :
    ((loadSettings (some (⟨[("vscode", ⟨true, true⟩)], []⟩ : PluginSettings))).builtInEditors.lookup "zed" =
      if "zed" ∈ BUILT_IN_EDITORS.map (fun e => e.id) ∧
          (⟨[("vscode", ⟨true, true⟩)], []⟩ : PluginSettings).builtInEditors.lookup "zed" = none
      then some ⟨false, false⟩
      else (⟨[("vscode", ⟨true, true⟩)], []⟩ : PluginSettings).builtInEditors.lookup "zed") ∧
    (loadSettings (some (⟨[("vscode", ⟨true, true⟩)], []⟩ : PluginSettings))).customEditors =
      (⟨[("vscode", ⟨true, true⟩)], []⟩ : PluginSettings).customEditors ∧
    ((loadSettings (some (⟨[("vscode", ⟨true, true⟩)], []⟩ : PluginSettings))).builtInEditors.lookup
      zedTemplate.id).isSome = true :=
  loadSettings_backfills_missing ⟨[("vscode", ⟨true, true⟩)], []⟩ "zed"
    zedTemplate (by decide)

/-- C4: with enabled editors A (ungrouped) and B (grouped) the contribution is
exactly one plain entry for A labeled "Open in {name}" and one "Open in
External Editor" parent whose submenu holds exactly B; no editors means no
entries; and the grouped parent appears exactly when some grouped editor is
enabled. -/
theorem menu_contribution_shape (A B : EditorConfig) (editors : List EditorConfig)
    (file : Option TAbstractFile) (hA : A.grouped = false) (hB : B.grouped = true) :
    buildMenuEntries [A, B] file =
      [MenuEntry.plain ("Open in " ++ A.name) "code" ⟨A, file⟩,
       MenuEntry.groupParent "Open in External Editor" "code"
         [(B.name, "code", (⟨B, file⟩ : ClickAction))]] ∧
    buildMenuEntries [] file = [] ∧
    (buildMenuEntries editors file).countP isGroupParent =
      (if editors.any (fun e => e.grouped) then 1 else 0) := by
  refine ⟨?_, rfl, ?_⟩
  · simp [buildMenuEntries, List.filter_cons, hA, hB]
  · by_cases hlen : editors.length = 0
    · have he : editors = [] := List.length_eq_zero.mp hlen
      subst he
      simp [buildMenuEntries]
    · simp only [buildMenuEntries, hlen, if_false]
      rw [List.countP_append]
      have h1 : List.countP isGroupParent
          ((editors.filter (fun e => !e.grouped)).map
            (fun e => MenuEntry.plain ("Open in " ++ e.name) "code" ⟨e, file⟩)) = 0 := by
        rw [List.countP_eq_zero]
        intro x hx
        rw [List.mem_map] at hx
        obtain ⟨e, _, rfl⟩ := hx
        simp [isGroupParent]
      rw [h1]
      by_cases hany : editors.any (fun e => e.grouped) = true
      · obtain ⟨e, he, hge⟩ := List.any_eq_true.mp hany
        have hne : editors.filter (fun e => e.grouped) ≠ [] := by
          intro hnil
          exact (List.filter_eq_nil_iff.mp hnil e he) hge
        have hpos : (editors.filter (fun e => e.grouped)).length > 0 :=
          List.length_pos.mpr hne
        simp [hpos, hany, isGroupParent]
      · have hnil : editors.filter (fun e => e.grouped) = [] := by
          rw [List.filter_eq_nil_iff]
          intro a ha hga
          exact hany (List.any_eq_true.mpr ⟨a, ha, hga⟩)
        simp [hnil, hany]

/-- Witness for C4 at concrete editors A (ungrouped) and B (grouped). -/
theorem menu_contribution_shape_witness :
    buildMenuEntries [codeCfg, cursorGroupedCfg] none =
      [MenuEntry.plain ("Open in " ++ codeCfg.name) "code" ⟨codeCfg, none⟩,
       MenuEntry.groupParent "Open in External Editor" "code"
         [(cursorGroupedCfg.name, "code", (⟨cursorGroupedCfg, none⟩ : ClickAction))]] :=
  (menu_contribution_shape codeCfg cursorGroupedCfg [] none rfl rfl).1

/-- C6: every descriptor returned by the registry corresponds to an enabled
editor: a returned built-in has an enabled settings entry, a returned custom
editor is an enabled stored one, and the descriptor itself carries
enabled=true. -/
theorem enabled_editors_only_enabled (s : PluginSettings) (e : EditorConfig)
    (he : e ∈ getEnabledEditors s) :
    e.enabled = true ∧
    (e.isBuiltIn = true →
      ∃ fl, s.builtInEditors.lookup e.id = some fl ∧ fl.enabled = true) ∧
    (e.isBuiltIn = false →
      ∃ c, c ∈ s.customEditors ∧ c.id = e.id ∧ c.enabled = true) := by
  have hall : ∀ a ∈ BUILT_IN_EDITORS, a.isBuiltIn = true := by decide
  rcases mem_getEnabledEditors s e he with ⟨a, ha, fl, hl, hen, rfl⟩ | ⟨c, hc, hen, rfl⟩
  · refine ⟨rfl, fun _ => ⟨fl, hl, hen⟩, fun hfalse => ?_⟩
    rw [show (⟨a.id, a.name, a.appName, a.command, true, fl.grouped,
        a.isBuiltIn⟩ : EditorConfig).isBuiltIn = a.isBuiltIn from rfl,
      hall a ha] at hfalse
    exact absurd hfalse (by decide)
  · exact ⟨rfl, fun htrue => (Bool.false_ne_true htrue).elim, fun _ => ⟨c, hc, rfl, hen⟩⟩

/-- Witness for C6: a settings state with VS Code enabled and its returned
descriptor. -/
theorem enabled_editors_only_enabled_witness :
    codeCfg.enabled = true ∧
    (codeCfg.isBuiltIn = true →
      ∃ fl, sampleSettings.builtInEditors.lookup codeCfg.id = some fl ∧
        fl.enabled = true) ∧
    (codeCfg.isBuiltIn = false →
      ∃ c, c ∈ sampleSettings.customEditors ∧ c.id = codeCfg.id ∧
        c.enabled = true) :=
  enabled_editors_only_enabled sampleSettings codeCfg (by decide)

/-- C7: the registry output is exactly the enabled built-ins in declaration
order followed by the enabled custom editors in stored order (the sequence the
spec describes). -/
theorem enabled_editors_order (s : PluginSettings) :
    getEnabledEditors s = enabledEditorsSpec s := by
  rw [getEnabledEditors, enabledEditorsSpec]
  congr 1
  · apply filterMap_eq_filter_map
    intro a
    cases hl : s.builtInEditors.lookup a.id with
    | none => simp [hl]
    | some fl => cases hen : fl.enabled <;> simp [hl, hen]
  · apply filterMap_eq_filter_map
    intro c
    cases hen : c.enabled <;> simp [hen]

/-- C9: a built-in id with no settings entry never makes the registry fail —
the editor is simply not returned, exactly as if its entry were disabled. -/
theorem missing_entry_total_and_disabled (s : PluginSettings)
    (b : BuiltInEditorTemplate) (hmem : b ∈ BUILT_IN_EDITORS)
    (hnone : s.builtInEditors.lookup b.id = none) :
    (∀ e ∈ getEnabledEditors s, e.isBuiltIn = true → e.id ≠ b.id) ∧
    getEnabledEditors s =
      getEnabledEditors
        { s with builtInEditors := s.builtInEditors ++ [(b.id, ⟨false, false⟩)] } := by
  constructor
  · intro e he hbi hid
    rcases mem_getEnabledEditors s e he with ⟨a, _, fl, hl, _, rfl⟩ | ⟨c, _, _, rfl⟩
    · have hid2 : a.id = b.id := hid
      rw [hid2, hnone] at hl
      exact Option.noConfusion hl
    · exact (Bool.false_ne_true hbi).elim
  · rw [getEnabledEditors, getEnabledEditors]
    congr 1
    apply List.filterMap_congr
    intro a _
    rw [List.lookup_append]
    cases hla : s.builtInEditors.lookup a.id with
    | some v => simp
    | none =>
      by_cases hab : a.id = b.id
      · simp [hab, List.lookup_cons]
      · have hbeq : (a.id == b.id) = false := beq_eq_false_iff_ne.mpr hab
        simp [List.lookup_cons, hbeq]

/-- Witness for C9: settings without any entry, probed at the `zed` id. -/
theorem missing_entry_total_and_disabled_witness :
    (∀ e ∈ getEnabledEditors emptySettings, e.isBuiltIn = true → e.id ≠ zedTemplate.id) ∧
    getEnabledEditors emptySettings =
      getEnabledEditors
        { emptySettings with
          builtInEditors := emptySettings.builtInEditors ++ [(zedTemplate.id, ⟨false, false⟩)] } :=
  missing_entry_total_and_disabled emptySettings zedTemplate (by decide) rfl

/-- C10: the files-menu handler contributes entries for the first selected
file only: the contribution equals a single-file contribution for the head,
does not depend on the remaining selection, adds nothing for an empty
selection, and every captured click target is the first file. -/
theorem files_menu_first_file_only (s : PluginSettings) (f : TAbstractFile)
    (rest rest2 : List TAbstractFile) :
    onFilesMenu s (f :: rest) = addEditorMenuItems s (some f) ∧
    onFilesMenu s (f :: rest) = onFilesMenu s (f :: rest2) ∧
    onFilesMenu s [] = [] ∧
    (∀ a ∈ menuActions (onFilesMenu s (f :: rest)), a.target = some f) := by
  have h1 : onFilesMenu s (f :: rest) = addEditorMenuItems s (some f) := by
    simp [onFilesMenu]
  have h2 : onFilesMenu s (f :: rest2) = addEditorMenuItems s (some f) := by
    simp [onFilesMenu]
  refine ⟨h1, by rw [h1, h2], rfl, ?_⟩
  rw [h1]
  exact menuActions_target (getEnabledEditors s) (some f)

/-- Witness for C10 on a two-file selection. -/
theorem files_menu_first_file_only_witness :
    onFilesMenu sampleSettings [TAbstractFile.file "a.md", TAbstractFile.file "b.md"] =
      addEditorMenuItems sampleSettings (some (TAbstractFile.file "a.md")) :=
  (files_menu_first_file_only sampleSettings (TAbstractFile.file "a.md")
    [TAbstractFile.file "b.md"] []).1

/-- C8 counterexample: two "Add Custom Editor" clicks in the same millisecond
(`Date.now()` returning 100 twice) produce the same id, so the custom-editor
list does not hold pairwise-distinct ids. -/
theorem custom_id_collision :
    ((addCustomEditors DEFAULT_SETTINGS [100, 100]).customEditors.map
      (fun c => c.id)) = ["custom-100", "custom-100"] ∧
    ¬ ((addCustomEditors DEFAULT_SETTINGS [100, 100]).customEditors.map
      (fun c => c.id)).Nodup := by
  constructor
  · rfl
  · decide

/-- C8 (amended): custom-editor ids are pairwise distinct provided the creation
timestamps (`Date.now()` values) are pairwise distinct; the id is a pure
decimal image of the timestamp, so distinct timestamps give distinct ids. -/
theorem custom_ids_distinct_of_distinct_timestamps (ts : List Nat)
    (h : ts.Nodup) :
    ((addCustomEditors DEFAULT_SETTINGS ts).customEditors.map
      (fun c => c.id)).Nodup := by
  rw [addCustomEditors_customEditors]
  have hdef : DEFAULT_SETTINGS.customEditors = [] := rfl
  rw [hdef, List.nil_append, List.map_map]
  exact List.Nodup.map customId_injective h

/-- Witness for the amended C8 at distinct timestamps 1 and 2. -/
theorem custom_ids_distinct_witness :
    ([1, 2] : List Nat).Nodup ∧
    ((addCustomEditors DEFAULT_SETTINGS [1, 2]).customEditors.map
      (fun c => c.id)).Nodup :=
  ⟨by decide, custom_ids_distinct_of_distinct_timestamps [1, 2] (by decide)⟩

end OpenInEditor
